import Mathlib

/-!
Verification of the judging pipeline of the ChiselLMS coding-practice platform.

The development shallowly embeds the pipeline's computational core:

* `ValidationUtils` — output normalization and comparison, performance-limit
  checks and the plagiarism screener stub (source: `lib/validation-utils.ts`);
* `OutputValidator` — the alternative comparator module
  (source: `src/lib/output-validator.ts`);
* `CodeAnalyzer` — the static complexity classifier
  (source: `src/lib/code-analyzer.ts`);
* `ExecService` — compilation checking, test-case execution, verdict and
  persistence-record synthesis (source: `src/lib/code-execution-service.ts`).

JavaScript-string primitives (`trim`, `toLowerCase`, `split`, `includes`,
regular-expression fragments, `JSON.parse` / `JSON.stringify`, `Number`)
are modelled in the `JsStr` and `Js` namespaces on the fragment the pipeline
exercises: ASCII case mapping, the core whitespace class, integer numerics.
Fallible source operations are modelled in the `Except` monad; a `try/catch`
block becomes `jsTry`.  Wall-clock times and memory figures are modelled in
integer milliseconds / megabytes.
-/

set_option linter.unusedVariables false

namespace JsStr

/-- ASCII uppercase→lowercase table; models `String.prototype.toLowerCase`
on the ASCII fragment. -/
def lcTable : List (Char × Char) :=
  [('A','a'), ('B','b'), ('C','c'), ('D','d'), ('E','e'), ('F','f'),
   ('G','g'), ('H','h'), ('I','i'), ('J','j'), ('K','k'), ('L','l'),
   ('M','m'), ('N','n'), ('O','o'), ('P','p'), ('Q','q'), ('R','r'),
   ('S','s'), ('T','t'), ('U','u'), ('V','v'), ('W','w'), ('X','x'),
   ('Y','y'), ('Z','z')]

/-- First-match association lookup. -/
def tblLookup : List (Char × Char) → Char → Option Char
  | [], _ => none
  | (k, v) :: ps, c => if c = k then some v else tblLookup ps c

/-- Lowercase one character (ASCII model of JS `toLowerCase`). -/
def lowerChar (c : Char) : Char := (tblLookup lcTable c).getD c

/-- The JS `\s` class on the characters the pipeline can meet
(space, tab, newline, carriage return, vertical tab, form feed). -/
def isWs (c : Char) : Bool :=
  c = ' ' || c = '\t' || c = '\n' || c = '\x0d' || c = '\x0b' || c = '\x0c'

/-- Model of `replace(/\s+/g, "")`: delete every whitespace character. -/
def stripWs (cs : List Char) : List Char := cs.filter (fun c => !isWs c)

/-- Model of `toLowerCase` over a character list. -/
def lowerList (cs : List Char) : List Char := cs.map lowerChar

/-- Model of `String.prototype.trim`. -/
def trimList (cs : List Char) : List Char :=
  ((cs.dropWhile isWs).reverse.dropWhile isWs).reverse

/-- `s.trim()` -/
def jsTrim (s : String) : String := ⟨trimList s.data⟩

/-- `s.toLowerCase()` (ASCII fragment) -/
def toLowerS (s : String) : String := ⟨lowerList s.data⟩

/-- `s.replace(/\s+/g, "")` -/
def stripWsS (s : String) : String := ⟨stripWs s.data⟩

/-- Whether `p` is a prefix of `cs` (Boolean, by character). -/
def startsWithL : List Char → List Char → Bool
  | _, [] => true
  | [], _ :: _ => false
  | c :: cs, p :: ps => c = p && startsWithL cs ps

/-- Model of `String.prototype.includes`: substring occurrence. -/
def hasSubstrL (cs p : List Char) : Bool :=
  match cs with
  | [] => startsWithL [] p
  | _ :: rest => startsWithL cs p || hasSubstrL rest p

/-- `s.includes(p)` -/
def includesS (s p : String) : Bool := hasSubstrL s.data p.data

/-- `s.startsWith(p)` -/
def startsWithS (s p : String) : Bool := startsWithL s.data p.data

/-- `s.endsWith(p)` -/
def endsWithS (s p : String) : Bool := startsWithL s.data.reverse p.data.reverse

/-- Split on a single-character separator; models `s.split(sep)` for the
one-character separators the source uses. -/
def splitOnCharL (sep : Char) : List Char → List (List Char) → List Char → List (List Char)
  | [], acc, cur => (acc ++ [cur.reverse])
  | c :: cs, acc, cur =>
    if c = sep then splitOnCharL sep cs (acc ++ [cur.reverse]) []
    else splitOnCharL sep cs acc (c :: cur)

/-- `s.split(sep)` for a one-character separator `sep`. -/
def splitS (s : String) (sep : Char) : List String :=
  (splitOnCharL sep s.data [] []).map (fun cs => ⟨cs⟩)

/-- The character for a decimal digit value. -/
def digitChar : Nat → Char
  | 0 => '0' | 1 => '1' | 2 => '2' | 3 => '3' | 4 => '4'
  | 5 => '5' | 6 => '6' | 7 => '7' | 8 => '8' | 9 => '9'
  | _ => '?'

/-- Decimal digit characters, most significant first; `fuel` bounds the
number of digits and the top-level entry always supplies enough. -/
def natCharsAux : Nat → Nat → List Char
  | 0, _ => []
  | fuel + 1, n =>
    if n < 10 then [digitChar n]
    else natCharsAux fuel (n / 10) ++ [digitChar (n % 10)]

/-- Decimal digit characters of a natural number, most significant first
(models how JS renders the integers this pipeline handles). -/
def natChars (n : Nat) : List Char := natCharsAux (n + 1) n

/-- String form of a natural number. -/
def natStr (n : Nat) : String := ⟨natChars n⟩

/-- String form of an integer (models JS integer number-to-string). -/
def intStr : Int → String
  | .ofNat n => natStr n
  | .negSucc n => ⟨'-' :: natChars (n + 1)⟩

/-- Numeric value of a digit-character list, most significant first. -/
def parseDigits (cs : List Char) : Nat :=
  cs.foldl (fun a c => a * 10 + (c.toNat - 48)) 0

end JsStr

namespace Js

open JsStr

/-- JSON values on the fragment this pipeline exchanges: integers, strings,
Booleans, null and (nested) arrays.  JS floats, exponents and objects do not
occur on the verified paths and are outside the model. -/
inductive Json where
  | null
  | jbool (b : Bool)
  | num (i : Int)
  | str (text : String)
  | arr (elems : List Json)

/-- Escape one character inside a JSON string literal the way
`JSON.stringify` does on the fragment used here. -/
def escChar (c : Char) : List Char :=
  let bs : Char := '\\'
  if c = '"' || c = bs then [bs, c]
  else if c = '\n' then [bs, 'n']
  else if c = '\t' then [bs, 't']
  else if c = '\x0d' then [bs, 'r']
  else [c]

mutual

/-- Model of `JSON.stringify` (no spacing, like the JS default). -/
def stringifyJ : Json → List Char
  | .num i => (intStr i).data
  | .str s => '"' :: (s.data.flatMap escChar) ++ ['"']
  | .jbool true => ['t','r','u','e']
  | .jbool false => ['f','a','l','s','e']
  | .null => ['n','u','l','l']
  | .arr xs => '[' :: stringifyList xs ++ [']']

/-- Elements of an array, comma separated. -/
def stringifyList : List Json → List Char
  | [] => []
  | [x] => stringifyJ x
  | x :: y :: xs => stringifyJ x ++ ',' :: stringifyList (y :: xs)

end

/-- `JSON.stringify(v)` as a string. -/
def stringifyS (v : Json) : String := ⟨stringifyJ v⟩

/-- Parse a run of decimal digits at the head; returns the digits and the rest. -/
def spanDigits (cs : List Char) : List Char × List Char :=
  (cs.takeWhile Char.isDigit, cs.dropWhile Char.isDigit)

/-- One parsing step for JSON string-literal bodies: unescape.  Invalid
escapes are taken literally (a harmless over-acceptance w.r.t. JS). -/
def parseStrBody : Nat → List Char → Except String (String × List Char)
  | 0, _ => .error "fuel"
  | _, [] => .error "unterminated string"
  | _, '"' :: rest => .ok ("", rest)
  | fuel + 1, '\\' :: e :: rest =>
    let c := match e with
      | 'n' => '\n' | 't' => '\t' | 'r' => '\x0d' | other => other
    match parseStrBody fuel rest with
    | .ok (s, r) => .ok (⟨c :: s.data⟩, r)
    | .error m => .error m
  | fuel + 1, c :: rest =>
    match parseStrBody fuel rest with
    | .ok (s, r) => .ok (⟨c :: s.data⟩, r)
    | .error m => .error m

mutual

/-- Recursive-descent model of `JSON.parse` on the fragment above.
`fuel` bounds recursion depth; the top-level entry supplies enough for any
input.  Differences from JS on out-of-fragment inputs (floats, exponents,
objects, leading zeros) only make this parser reject or accept more; no
verified statement depends on those inputs. -/
def parseValue : Nat → List Char → Except String (Json × List Char)
  | 0, _ => .error "fuel"
  | _, [] => .error "unexpected end"
  | fuel + 1, c :: rest =>
      if c = '[' then
        let r1 := rest.dropWhile isWs
        match r1 with
        | ']' :: r2 => .ok (.arr [], r2)
        | _ => parseElems fuel r1 []
      else if c = '"' then
        match parseStrBody (rest.length + 1) rest with
        | .ok (s, r) => .ok (.str s, r)
        | .error m => .error m
      else if startsWithL (c :: rest) "true".data then .ok (.jbool true, rest.drop 3)
      else if startsWithL (c :: rest) "false".data then .ok (.jbool false, rest.drop 4)
      else if startsWithL (c :: rest) "null".data then .ok (.null, rest.drop 3)
      else if c = '-' then
        match spanDigits rest with
        | ([], _) => .error "bad number"
        | (ds, r) => .ok (.num (-(parseDigits ds : Int)), r)
      else if c.isDigit then
        match spanDigits (c :: rest) with
        | (ds, r) => .ok (.num (parseDigits ds : Int), r)
      else .error "unexpected character"

/-- Parse the elements of a non-empty JSON array, commas between them. -/
def parseElems : Nat → List Char → List Json → Except String (Json × List Char)
  | 0, _, _ => .error "fuel"
  | fuel + 1, cs, acc =>
    match parseValue fuel cs with
    | .error m => .error m
    | .ok (v, r) =>
      match r.dropWhile isWs with
      | ',' :: r2 => parseElems fuel (r2.dropWhile isWs) (acc ++ [v])
      | ']' :: r2 => .ok (.arr (acc ++ [v]), r2)
      | _ => .error "expected comma or bracket"

end

/-- Model of `JSON.parse`: whole-string parse with surrounding whitespace. -/
def jsonParse (s : String) : Except String Json :=
  match parseValue (s.data.length + 2) (s.data.dropWhile isWs) with
  | .error m => .error m
  | .ok (v, r) =>
    if r.dropWhile isWs = [] then .ok v else .error "trailing input"

/-- Model of JS `Number(v)` on the fragment the pipeline meets: optional
sign and decimal digits (whitespace-trimmed; empty means `0`); everything
else — floats, exponents, hex, `Infinity` — is `NaN`, i.e. `none`.  The
verified statements never rely on a `Number` call outside this fragment. -/
def jsToNumber (v : String) : Option Int :=
  let cs := trimList v.data
  match cs with
  | [] => some 0
  | '-' :: ds => if ds ≠ [] && ds.all Char.isDigit then some (-(parseDigits ds : Int)) else none
  | '+' :: ds => if ds ≠ [] && ds.all Char.isDigit then some ((parseDigits ds : Int)) else none
  | ds => if ds.all Char.isDigit then some ((parseDigits ds : Int)) else none

/-- A `try { … } catch (e) { … }` block over the exception model. -/
def jsTry {α : Type} (x : Except String α) (h : String → Except String α) :
    Except String α :=
  match x with
  | .ok v => .ok v
  | .error e => h e

end Js

namespace ValidationUtils

open JsStr Js

/-- Result of a comparison: `{ passed: boolean; diff?: string }`.  The
`visualDiff` field of the source carries the same data in UI form and is
omitted from the model. -/
structure CompareResult where
  passed : Bool
  diff : Option String := none

/-- A digit string that `JSON.parse` rejects as a number: more than one
digit with a leading zero. -/
def leadZero : List Char → Bool
  | '0' :: _ :: _ => true
  | _ => false

/-- Try to match the regex `\[\s*\d+\s*,\s*\d+\s*\]` at the head of the
input; on success return the two digit runs (`\s*` is `dropWhile isWs`,
`\d+` is a non-empty `spanDigits`). -/
def pairAt (cs : List Char) : Option (List Char × List Char) :=
  match cs with
  | [] => none
  | c :: r =>
    if c = '[' then
      let s1 := spanDigits (r.dropWhile isWs)
      if s1.1 = [] then none
      else
        match s1.2.dropWhile isWs with
        | [] => none
        | c4 :: r4 =>
          if c4 = ',' then
            let s2 := spanDigits (r4.dropWhile isWs)
            if s2.1 = [] then none
            else
              match s2.2.dropWhile isWs with
              | [] => none
              | c7 :: _ => if c7 = ']' then some (s1.1, s2.1) else none
          else none
    else none

/-- Leftmost match of `/\[\s*\d+\s*,\s*\d+\s*\]/` in the input, as the two
digit runs (models `output.match(...)` followed by `JSON.parse(match[0])`;
the parse of a match can only fail on a leading-zero digit run, which the
caller checks via `leadZero`). -/
def findPairDigits : List Char → Option (List Char × List Char)
  | [] => none
  | c :: cs =>
    match pairAt (c :: cs) with
    | some p => some p
    | none => findPairDigits cs

/-- JS `array.sort((a, b) => a - b)` on a two-element numeric array. -/
def sortPair (a b : Int) : List Json :=
  if a ≤ b then [.num a, .num b] else [.num b, .num a]

/-- Generic normalization: remove all whitespace, lowercase
(`normalizeGenericOutput`). -/
def normalizeGenericOutput (output : String) : String :=
  ⟨lowerList (stripWs output.data)⟩

/-- The comma-separated branch shared by the two-sum and array normalizers:
split on `,`, trim each piece, coerce numeric pieces with `Number`. -/
def commaValues (output : String) : List Json :=
  (splitS output ',').map (fun v =>
    let t := jsTrim v
    match jsToNumber t with
    | some n => .num n
    | none => .str t)

/-- Whether a `Json` value is a number (JS `typeof item === "number"`). -/
def isNum : Json → Bool
  | .num _ => true
  | _ => false

/-- The part of `normalizeTwoSumOutput` after the bracket branch: the
comma-separated branch (sorting two-element numeric sequences), else the
generic normalization. -/
def normalizeTwoSumCommaPath (output : String) : Except String String :=
  if includesS output "," then
    let parsedValues := commaValues output
    match parsedValues with
    | [.num a, .num b] => .ok (stringifyS (.arr (sortPair a b)))
    | vs => .ok (stringifyS (.arr vs))
  else .ok (normalizeGenericOutput output)

/-- `normalizeTwoSumOutput` (validation-utils): bracketed pair → sorted pair;
else comma path; else generic.  The body sits in a `try` whose `catch`
returns the generic normalization; the only fallible step is
`JSON.parse(match[0])`, which fails exactly on leading-zero digit runs.
(The source's `return arrayStr` line is unreachable: a regex match always
parses to a two-element numeric array.) -/
def normalizeTwoSumOutputE (output : String) : Except String String :=
  jsTry
    (if includesS output "[" && includesS output "]" then
      match findPairDigits output.data with
      | some (d1, d2) =>
        if leadZero d1 || leadZero d2 then .error "Unexpected number in JSON"
        else .ok (stringifyS (.arr (sortPair (parseDigits d1) (parseDigits d2))))
      | none => normalizeTwoSumCommaPath output
    else normalizeTwoSumCommaPath output)
    (fun _ => .ok (normalizeGenericOutput output))

/-- `normalizeArrayOutput` (validation-utils): bracket-delimited input is
`JSON.parse`d and re-serialized; else the comma path (unsorted); else — and
on a caught parse failure — the trailing generic normalization. -/
def normalizeArrayOutputE (output : String) : Except String String :=
  let generic : String := ⟨lowerList (stripWs output.data)⟩
  if startsWithS output "[" && endsWithS output "]" then
    match jsonParse output with
    | .ok v => .ok (stringifyS v)
    | .error _ => .ok generic
  else if includesS output "," then
    .ok (stringifyS (.arr (commaValues output)))
  else .ok generic

/-- `normalizeStringOutput`: trim, strip one layer of matching quotes,
remove whitespace, lowercase.  JS `substring(1, len-1)` on a one-character
quoted string swaps its arguments and leaves the string intact, which the
length guard reproduces. -/
def normalizeStringOutput (output : String) : String :=
  let t := trimList output.data
  let squote : Char := '\x27'
  let unq :=
    if (startsWithL t ['"'] && startsWithL t.reverse ['"']) ||
       (startsWithL t [squote] && startsWithL t.reverse [squote]) then
      if 2 ≤ t.length then (t.drop 1).dropLast else t
    else t
  ⟨lowerList (stripWs unq)⟩

/-- `normalizeOutput` (validation-utils): empty in, empty out; otherwise
dispatch on the problem type inside a `try` whose `catch` returns the
trimmed original. -/
def normalizeOutputE (output language problemType : String) : Except String String :=
  if output = "" then .ok ""
  else
    jsTry
      (match problemType with
       | "two-sum" => normalizeTwoSumOutputE output
       | "array" => normalizeArrayOutputE output
       | "string" => .ok (normalizeStringOutput output)
       | _ => .ok (normalizeGenericOutput output))
      (fun _ => .ok (jsTrim output))

/-- The pure view of `normalizeOutput`; claim C4 shows the `Except`
computation never escapes with an error, so this extraction loses
nothing. -/
def normalizeOutput (output language problemType : String) : String :=
  match normalizeOutputE output language problemType with
  | .ok s => s
  | .error s => s

end ValidationUtils

namespace ValidationUtils

open JsStr Js

/-- `", "`-joined rendering of a numeric array (JS `array.join(", ")` as
used in the two-sum diff strings). -/
def joinNums : List Json → String
  | [] => ""
  | [.num a] => intStr a
  | [v] => stringifyS v
  | v :: vs =>
    (match v with | .num a => intStr a | other => stringifyS other) ++ ", " ++ joinNums vs

/-- JS `typeof` on parsed JSON values, for the mismatch diff text. -/
def typeofJ : Json → String
  | .num _ => "number"
  | .str _ => "string"
  | .jbool _ => "boolean"
  | .null => "object"
  | .arr _ => "an array"

/-- First differing position of two strings: the
`- First difference at position i …` line, or none when one string is a
prefix of the other. -/
def firstDiffLine (i : Nat) : List Char → List Char → Option String
  | e :: es, a :: as =>
    if e ≠ a then
      some ("- First difference at position " ++ natStr i ++ ": expected \x27" ++
        ⟨[e]⟩ ++ "\x27, got \x27" ++ ⟨[a]⟩ ++ "\x27\n")
    else firstDiffLine (i + 1) es as
  | _, _ => none

/-- The generic branch of `compareOutputs` (validation-utils): exact match
passes; otherwise a textual diff (expected/actual, length mismatch, first
differing character). -/
def compareGeneric (expected actual : String) : CompareResult :=
  if expected = actual then { passed := true }
  else
    let base := "Differences found:\n- Expected: " ++ expected ++ "\n- Actual: " ++ actual ++ "\n"
    let lenLine :=
      if expected.length ≠ actual.length then
        "- Length mismatch: expected " ++ natStr expected.length ++ ", got " ++
          natStr actual.length ++ "\n"
      else ""
    let fd := (firstDiffLine 0 expected.data actual.data).getD ""
    { passed := false, diff := some (base ++ lenLine ++ fd) }

/-- The core of `compareTwoSumOutputs` once both sides parsed. -/
def compareParsedTwoSum (expectedArray actualArray : Json) : CompareResult :=
  match expectedArray, actualArray with
  | .arr xs, .arr ys =>
    match xs, ys with
    | [.num a, .num b], [.num c, .num d] =>
      let se := if a ≤ b then (a, b) else (b, a)
      let sa := if c ≤ d then (c, d) else (d, c)
      if se.1 = sa.1 && se.2 = sa.2 then { passed := true }
      else
        let missing := if se.1 ≠ sa.1 then se.1 else se.2
        { passed := false
          diff := some ("Missing elements: " ++ intStr missing ++
            "\nExpected indices [" ++ joinNums xs ++ "], got [" ++ joinNums ys ++ "]") }
    | _, _ =>
      if stringifyJ (.arr xs) = stringifyJ (.arr ys) then { passed := true }
      else
        { passed := false
          diff := some ("Arrays do not match:\nExpected: " ++ stringifyS (.arr xs) ++
            "\nActual: " ++ stringifyS (.arr ys)) }
  | _, other =>
    { passed := false
      diff := some ("Expected an array, but got " ++ typeofJ other) }

/-- `compareTwoSumOutputs`: parse both sides (the actual side tolerating a
regex-extracted `[d, d]`), compare as sorted index pairs; any uncaught parse
failure falls back to exact string comparison. -/
def compareTwoSumOutputsE (expected actual : String) : Except String CompareResult :=
  jsTry
    (match jsonParse expected with
     | .error m => .error m
     | .ok expectedArray =>
       match
         (jsTry (jsonParse actual)
           (fun _ =>
             match findPairDigits actual.data with
             | some (d1, d2) =>
               if leadZero d1 || leadZero d2 then .error "Unexpected number in JSON"
               else .ok (.arr [.num (parseDigits d1), .num (parseDigits d2)])
             | none => .error "Could not parse actual output as array")) with
       | .error m => .error m
       | .ok actualArray => .ok (compareParsedTwoSum expectedArray actualArray))
    (fun e =>
      if expected = actual then .ok { passed := true }
      else .ok
        { passed := false
          diff := some ("Could not parse outputs as arrays:\nExpected: " ++ expected ++
            "\nActual: " ++ actual ++ "\nError: " ++ e) })

/-- `compareOutputs` (validation-utils): the comparator the judging pipeline
imports.  Two-sum gets the specialized comparison; every other problem type
gets the generic exact-match-or-textual-diff branch. -/
def compareOutputsE (expected actual problemType : String) : Except String CompareResult :=
  if problemType = "two-sum" then compareTwoSumOutputsE expected actual
  else .ok (compareGeneric expected actual)

/-- Pure view of `compareOutputs`; claim C4 shows the error branch is
unreachable. -/
def compareOutputs (expected actual problemType : String) : CompareResult :=
  match compareOutputsE expected actual problemType with
  | .ok r => r
  | .error _ => { passed := false }

/-- `checkPerformanceLimits` (validation-utils): times in ms, memory in MB,
modelled as naturals; `toFixed(2)` renders them with a `.00` tail. -/
def fixed2 (n : Nat) : String := natStr n ++ ".00"

/-- Result of the performance check. -/
structure PerfResult where
  passed : Bool
  reason : Option String := none

/-- `checkPerformanceLimits(executionTime, memoryUsed, timeLimit, memoryLimit)`. -/
def checkPerformanceLimits (executionTime memoryUsed timeLimit memoryLimit : Nat) :
    PerfResult :=
  if executionTime > timeLimit then
    { passed := false
      reason := some ("Time limit exceeded: " ++ fixed2 executionTime ++ "ms (limit: " ++
        fixed2 timeLimit ++ "ms)") }
  else if memoryUsed > memoryLimit then
    { passed := false
      reason := some ("Memory limit exceeded: " ++ fixed2 memoryUsed ++ "MB (limit: " ++
        fixed2 memoryLimit ++ "MB)") }
  else { passed := true }

/-- Result of the plagiarism screener. -/
structure PlagiarismResult where
  isPlagiarized : Bool
  score : ℚ

/-- `detectPlagiarism` (validation-utils): the repository's screener stub
normalizes the code and then always reports no plagiarism with score `0.1`
(the corpus comparison is delegated to an absent collaborator). -/
def detectPlagiarism (code language : String) (problemId : Nat) : PlagiarismResult :=
  { isPlagiarized := false, score := 1/10 }

end ValidationUtils

namespace OutputValidator

open JsStr Js ValidationUtils

/-- Insertion-order deduplication with a seen-set accumulator. -/
def dedupeAux : List String → List String → List String
  | [], _ => []
  | x :: xs, seen =>
    if seen.contains x then dedupeAux xs seen else x :: dedupeAux xs (x :: seen)

/-- The element sequence of a JS `Set` built from a list: first occurrences
in insertion order. -/
def dedupeKeys (l : List String) : List String := dedupeAux l []

/-- The stringified keys of an array's elements
(`arr.map(item => JSON.stringify(item))`). -/
def keysOf (xs : List Json) : List String := xs.map stringifyS

/-- `[...expectedSet].filter(item => !actualSet.has(item))`. -/
def missingOf (xs ys : List Json) : List String :=
  (dedupeKeys (keysOf xs)).filter (fun k => !(keysOf ys).contains k)

/-- `[...actualSet].filter(item => !expectedSet.has(item))`. -/
def extraOf (xs ys : List Json) : List String :=
  (dedupeKeys (keysOf ys)).filter (fun k => !(keysOf xs).contains k)

/-- `list.join(", ")`. -/
def joinCommaSp : List String → String
  | [] => ""
  | [s] => s
  | s :: ss => s ++ ", " ++ joinCommaSp ss

/-- The array-shaped diff body of output-validator's `compareOutputs`:
length-mismatch line when lengths differ, then missing/extra element lines
from the set difference of stringified elements. -/
def arrayDiffBody (xs ys : List Json) : String :=
  (if xs.length ≠ ys.length then
    "- Array length mismatch: expected " ++ natStr xs.length ++ ", got " ++
      natStr ys.length ++ "\n"
   else "") ++
  (if missingOf xs ys ≠ [] then
    "- Missing elements: " ++ joinCommaSp (missingOf xs ys) ++ "\n"
   else "") ++
  (if extraOf xs ys ≠ [] then
    "- Extra elements: " ++ joinCommaSp (extraOf xs ys) ++ "\n"
   else "")

/-- `compareOutputs` (output-validator): exact match passes; JSON-looking
expected sides are compared structurally (arrays by length and by
set-difference of stringified elements, a parse failure falling back to the
plain expected/actual lines); all other shapes get the plain string diff
with length mismatch and first differing character. -/
def compareOutputs (expected actual : String) : CompareResult :=
  if expected = actual then { passed := true }
  else
    let hdr := "Differences found:\n"
    if (startsWithS expected "\x7b" && endsWithS expected "\x7d") ||
       (startsWithS expected "[" && endsWithS expected "]") then
      match jsonParse expected, jsonParse actual with
      | .ok (.arr xs), .ok (.arr ys) =>
        { passed := false, diff := some (hdr ++ arrayDiffBody xs ys) }
      | .ok _, .ok _ =>
        { passed := false, diff := some (hdr ++ "Objects differ\n") }
      | _, _ =>
        { passed := false
          diff := some (hdr ++ "- Expected: " ++ expected ++ "\n- Actual: " ++ actual ++ "\n") }
    else
      let base := hdr ++ "- Expected: " ++ expected ++ "\n- Actual: " ++ actual ++ "\n"
      let lenLine :=
        if expected.length ≠ actual.length then
          "- Length mismatch: expected " ++ natStr expected.length ++ ", got " ++
            natStr actual.length ++ "\n"
        else ""
      let fd := (firstDiffLine 0 expected.data actual.data).getD ""
      { passed := false, diff := some (base ++ lenLine ++ fd) }

end OutputValidator

namespace CodeAnalyzer

open JsStr

/-- Classifier output of `analyzeCodeComplexity`. -/
structure ComplexityResult where
  timeComplexity : String
  spaceComplexity : String
  isOptimal : Bool

/-- Match `kw` + `\s*` + `(` at the head; on success return the rest after
the opening parenthesis. -/
def loopMatchAt (kw : List Char) (cs : List Char) : Option (List Char) :=
  if startsWithL cs kw then
    match (cs.drop kw.length).dropWhile isWs with
    | '(' :: r => some r
    | _ => none
  else none

/-- Count of non-overlapping `/kw\s*\(/g` matches (fuel-bounded scan). -/
def countLoopPat (kw : List Char) : Nat → List Char → Nat
  | 0, _ => 0
  | _, [] => 0
  | fuel + 1, c :: cs =>
    match loopMatchAt kw (c :: cs) with
    | some rest => 1 + countLoopPat kw fuel rest
    | none => countLoopPat kw fuel cs

/-- `(code.match(/for\s*\(/g) || []).length >= 2 || (…while…) >= 2`. -/
def hasNestedLoops (code : String) : Bool :=
  2 ≤ countLoopPat ['f','o','r'] code.data.length code.data ||
  2 ≤ countLoopPat ['w','h','i','l','e'] code.data.length code.data

/-- Hash-container usage signal. -/
def hasHashMap (code : String) : Bool :=
  includesS code "Map(" || includesS code "Object." || includesS code "dict(" ||
  includesS code "HashMap" || includesS code "unordered_map"

/-- Binary-search shape signal. -/
def hasBinarySearch (code : String) : Bool :=
  includesS code "mid" && (includesS code "left" || includesS code "right") &&
  (includesS code "< mid" || includesS code "> mid")

/-- `analyzeCodeComplexity` (code-analyzer): heuristic decision table from
the three pattern signals, keyed by problem type; defaults are
`O(n)`/`O(n)`/not optimal.  (The body's `try/catch` cannot fire: every step
is total.) -/
def analyzeCodeComplexity (code language problemType : String) : ComplexityResult :=
  let nested := hasNestedLoops code
  let hash := hasHashMap code
  let bsearch := hasBinarySearch code
  if problemType = "two-sum" then
    if nested && !hash then ⟨"O(n²)", "O(1)", false⟩
    else if hash then ⟨"O(n)", "O(n)", true⟩
    else ⟨"O(n)", "O(n)", false⟩
  else if problemType = "binary-search" then
    if bsearch then ⟨"O(log n)", "O(1)", true⟩
    else ⟨"O(n)", "O(1)", false⟩
  else if problemType = "sorting" then
    if includesS code "sort(" || includesS code ".sort(" || includesS code "Arrays.sort(" then
      ⟨"O(n log n)", "O(log n)", true⟩
    else if nested then ⟨"O(n²)", "O(1)", false⟩
    else ⟨"O(n)", "O(n)", false⟩
  else
    if nested then ⟨"O(n²)", "O(n)", false⟩
    else if bsearch then ⟨"O(log n)", "O(1)", false⟩
    else if hash then ⟨"O(n)", "O(n)", false⟩
    else ⟨"O(n)", "O(n)", false⟩

end CodeAnalyzer

namespace ExecService

open JsStr Js ValidationUtils CodeAnalyzer

/-- Result of the compilation/static check. -/
structure CompileResult where
  success : Bool
  error : Option String := none

/-- Lines whose shape the Java semicolon heuristic flags (`compileCode`):
non-blank, not brace- or semicolon-terminated, not a comment line and not
a package/import directive.  `t` is the already-trimmed line. -/
def javaLineBad (t : String) : Bool :=
  t ≠ "" && !endsWithS t "\x7b" && !endsWithS t "\x7d" && !endsWithS t ";" &&
  !startsWithS t "//" && !startsWithS t "/*" && !endsWithS t "*/" &&
  !startsWithS t "package" && !startsWithS t "import"

/-- The C++ variant of the heuristic: include-directive lines are exempt. -/
def cppLineBad (t : String) : Bool :=
  t ≠ "" && !endsWithS t "\x7b" && !endsWithS t "\x7d" && !endsWithS t ";" &&
  !startsWithS t "//" && !startsWithS t "/*" && !endsWithS t "*/" &&
  !includesS t "#include"

/-- First flagged line: its 1-based index and trimmed content. -/
def firstBadLine (bad : String → Bool) (i : Nat) : List String → Option (Nat × String)
  | [] => none
  | l :: ls =>
    let t := jsTrim l
    if bad t then some (i, t) else firstBadLine bad (i + 1) ls

/-- `compileCode` (code-execution-service): interpreted languages always
pass; Java and C++ require their entry-point markers and then run the
per-line missing-semicolon heuristic.  (The simulated 500 ms latency is a
pure delay and does not affect the result.) -/
def compileCode (code language : String) : CompileResult :=
  if language = "javascript" || language = "python" then { success := true }
  else if language = "java" then
    if !includesS code "class" || !includesS code "public static void main" then
      { success := false
        error := some "error: missing \x27public static void main\x27 method\n  public class must contain a main method" }
    else
      match firstBadLine javaLineBad 1 (splitS code '\n') with
      | some (i, t) =>
        { success := false
          error := some ("error: \x27;\x27 expected\n  at line " ++ natStr i ++ ": " ++ t) }
      | none => { success := true }
  else if language = "cpp" then
    if !includesS code "main(" && !includesS code "main (" then
      { success := false
        error := some "error: \x27main\x27 function not found\n  program must contain a main function" }
    else
      match firstBadLine cppLineBad 1 (splitS code '\n') with
      | some (i, t) =>
        { success := false
          error := some ("error: expected \x27;\x27 at end of declaration\n  at line " ++ natStr i ++ ": " ++ t) }
      | none => { success := true }
  else { success := true }

/-- A test case as fetched from the store (`input`, `expected_output`). -/
structure TestCase where
  input : String
  expectedOutput : String

/-- What the external executor reports for one test case, together with the
measured wall-clock time in ms.  The repository's simulated executors are
placeholders for this collaborator (spec §6), so the outcome is an oracle
input of the model. -/
structure ExecOutcome where
  output : String
  error : Option String := none
  time : Nat

/-- Per-test-case judgement record. -/
structure TestCaseResult where
  input : String
  expectedOutput : String
  actualOutput : String
  passed : Bool
  executionTime : Option Nat := none
  errorMessage : Option String := none
  diff : Option String := none

/-- The problem row consumed by `validateTestCases` (`code` is the
problem-type tag; limits may be absent and default). -/
structure Problem where
  code : Option String := none
  timeLimit : Option Nat := none
  memoryLimit : Option Nat := none
  difficulty : String := "medium"
  timeComplexity : String := "O(n)"

/-- JS truthiness of an optional string: `undefined` and `""` are falsy. -/
def truthy : Option String → Option String
  | some s => if s = "" then none else some s
  | none => none

/-- JS `v || d` for an optional string: `undefined` and `""` fall back. -/
def jsOrStr (v : Option String) (d : String) : String :=
  match v with
  | some s => if s = "" then d else s
  | none => d

/-- JS `v || d` for an optional number: `undefined` and `0` fall back. -/
def jsOrNat (v : Option Nat) (d : Nat) : Nat :=
  match v with
  | some n => if n = 0 then d else n
  | none => d

/-- `formatOutput` (language-executors): executor outputs are strings, and
`String(s)` on a string is the identity; the `typeof output === "object"`
branch is unreachable for them. -/
def formatOutput (output language problemType : String) : String := output

/-- `executeTestCase`: runtime error short-circuits; then the performance
check against the limits; then format, normalize and compare.  The
sanitization step rewrites the code before the (oracle) executor call and
cannot affect the model.  Nothing in the body throws (claim C4), so the
catch branch of the source is dead. -/
def executeTestCase (tc : TestCase) (oc : ExecOutcome) (language problemType : String)
    (timeLimit memoryLimit : Nat) : TestCaseResult :=
  match truthy oc.error with
  | some e =>
    { input := tc.input, expectedOutput := tc.expectedOutput, actualOutput := ""
      passed := false, executionTime := some oc.time, errorMessage := some e }
  | none =>
    let perf := checkPerformanceLimits oc.time 0 timeLimit memoryLimit
    if !perf.passed then
      { input := tc.input, expectedOutput := tc.expectedOutput
        actualOutput := oc.output, passed := false, executionTime := some oc.time
        errorMessage := perf.reason }
    else
      let formatted := formatOutput oc.output language problemType
      let normalizedExpected := normalizeOutput tc.expectedOutput language problemType
      let normalizedActual := normalizeOutput formatted language problemType
      let cr := compareOutputs normalizedExpected normalizedActual problemType
      { input := tc.input, expectedOutput := tc.expectedOutput
        actualOutput := formatted, passed := cr.passed, executionTime := some oc.time
        diff := cr.diff }

/-- `generateFeedback`: the deterministic feedback rule set. -/
def generateFeedback (results : List TestCaseResult) (passed total : Nat)
    (complexity : ComplexityResult) (problem : Problem) : List String :=
  (if passed = total then
    ["Great job! All test cases passed."] ++
    (if complexity.isOptimal then
      ["Your solution has optimal time and space complexity."]
     else
      ["Your solution works correctly, but could be optimized. The expected time complexity is " ++
        problem.timeComplexity ++ "."])
   else if passed = 0 then
    ["Your solution didn\x27t pass any test cases. Review the problem statement carefully."]
   else
    ["Your solution passed " ++ natStr passed ++ " out of " ++ natStr total ++ " test cases."]) ++
  (let failed := results.filter (fun r => !r.passed)
   if !failed.isEmpty then
     (if failed.any (fun r =>
          match truthy r.errorMessage with
          | some m => !includesS m "Time Limit"
          | none => false) then
       ["Your code has runtime errors on some test cases. Check for edge cases like empty arrays or null values."]
      else []) ++
     (if failed.any (fun r =>
          match r.errorMessage with
          | some m => includesS m "Time Limit"
          | none => false) then
       ["Your solution exceeds the time limit. Try to optimize your algorithm to meet the expected " ++
         problem.timeComplexity ++ " time complexity."]
      else [])
   else [])

/-- Aggregate result of `validateTestCases`. -/
structure ValidateResult where
  testCasesPassed : Nat
  totalTestCases : Nat
  results : List TestCaseResult
  isOptimal : Bool
  compilationError : Bool
  compilationErrorMessage : Option String := none
  timeComplexity : Option String := none
  spaceComplexity : Option String := none
  potentialPlagiarism : Option Bool := none
  plagiarismScore : Option ℚ := none
  feedback : List String := []

/-- `validateTestCases`: compile gate, problem fetch, test-case fetch, then
per-test execution, complexity classification, the plagiarism stub and
feedback.  The second component records which test cases were handed to the
executor, so that the short-circuit claims can speak about invocations.
The optimality bar `executionTime && executionTime < timeLimit * 0.5`
becomes `t ≠ 0 ∧ 2·t < timeLimit` in integer ms (`0` is JS-falsy). -/
def validateTestCases (code language : String) (problem : Option Problem)
    (tests : List (TestCase × ExecOutcome)) : ValidateResult × List TestCase :=
  let compilation := compileCode code language
  if !compilation.success then
    ({ testCasesPassed := 0, totalTestCases := 0, results := [], isOptimal := false
       compilationError := true, compilationErrorMessage := compilation.error
       feedback :=
         ["Your code failed to compile. Check the error message for details.",
          "Make sure all syntax is correct for the chosen language."] }, [])
  else
    match problem with
    | none =>
      ({ testCasesPassed := 0, totalTestCases := 0, results := [], isOptimal := false
         compilationError := false, feedback := ["Problem not found"] }, [])
    | some problem =>
      if tests.isEmpty then
        ({ testCasesPassed := 0, totalTestCases := 0, results := [], isOptimal := false
           compilationError := false
           feedback := ["No test cases found for this problem"] }, [])
      else
        let problemType := jsOrStr problem.code "general"
        let timeLimit := jsOrNat problem.timeLimit 2000
        let memoryLimit := jsOrNat problem.memoryLimit 128
        let results := tests.map (fun (tc, oc) =>
          executeTestCase tc oc language problemType timeLimit memoryLimit)
        let testCasesPassed := (results.filter (fun r => r.passed)).length
        let complexityAnalysis := analyzeCodeComplexity code language problemType
        let plagiarismCheck := detectPlagiarism code language 0
        let feedback := generateFeedback results testCasesPassed tests.length
          complexityAnalysis problem
        let isOptimal :=
          decide (testCasesPassed = tests.length) && complexityAnalysis.isOptimal &&
          results.all (fun r =>
            match r.executionTime with
            | some t => t ≠ 0 && 2 * t < timeLimit
            | none => false)
        ({ testCasesPassed := testCasesPassed, totalTestCases := tests.length
           results := results, isOptimal := isOptimal, compilationError := false
           timeComplexity := some complexityAnalysis.timeComplexity
           spaceComplexity := some complexityAnalysis.spaceComplexity
           potentialPlagiarism := some plagiarismCheck.isPlagiarized
           plagiarismScore := some plagiarismCheck.score
           feedback := feedback }, tests.map (fun (tc, _) => tc))

/-- The `ExecutionResult` surfaced by `executeCode` (the long display-text
`output` field is UI formatting and is not modelled; `executionTime` and
`memoryUsed` are wall-clock / simulated oracle values). -/
structure ExecutionResult where
  success : Bool
  executionTime : Nat
  memoryUsed : Nat
  testCasesPassed : Nat
  totalTestCases : Nat
  testCaseResults : List TestCaseResult
  errorMessage : Option String := none
  compilationError : Bool := false
  timeComplexity : Option String := none
  spaceComplexity : Option String := none
  potentialPlagiarism : Option Bool := none
  plagiarismScore : Option ℚ := none

/-- `executeCode`: wraps `validateTestCases`; a compilation error
short-circuits with zero counts, otherwise success means every test case
passed.  Nothing in the model throws, so the catch branch is dead. -/
def executeCode (code language : String) (problem : Option Problem)
    (tests : List (TestCase × ExecOutcome)) (wallTime memUsed : Nat) :
    ExecutionResult × List TestCase :=
  let (v, invoked) := validateTestCases code language problem tests
  if v.compilationError then
    ({ success := false, executionTime := 0, memoryUsed := 0
       testCasesPassed := 0, totalTestCases := v.totalTestCases
       testCaseResults := [], errorMessage := v.compilationErrorMessage
       compilationError := true }, invoked)
  else
    ({ success := v.testCasesPassed = v.totalTestCases
       executionTime := wallTime, memoryUsed := memUsed
       testCasesPassed := v.testCasesPassed, totalTestCases := v.totalTestCases
       testCaseResults := v.results
       timeComplexity := v.timeComplexity, spaceComplexity := v.spaceComplexity
       potentialPlagiarism := v.potentialPlagiarism
       plagiarismScore := v.plagiarismScore }, invoked)

/-- The guard on line 515 of `executeCode`: the plagiarism warning is
appended to the display text iff `potentialPlagiarism` is truthy — the
score plays no part. -/
def plagiarismWarningShown (er : ExecutionResult) : Bool :=
  er.potentialPlagiarism.getD false

/-- The plagiarism gate of `submitSolution` (line 639): blocks only when
the flag is truthy and the score exceeds `0.8`. -/
def plagiarismGate (potentialPlagiarism : Option Bool) (score : Option ℚ) : Bool :=
  potentialPlagiarism.getD false && decide (score.getD 0 > 4/5)

/-- Status determination of `submitSolution` (lines 649-656), in priority
order: all passed, then a `"Time Limit"`-mentioning error, then any other
error, else wrong answer. -/
def determineStatus (er : ExecutionResult) : String :=
  if er.testCasesPassed = er.totalTestCases then "Accepted"
  else if er.testCaseResults.any (fun r =>
      match r.errorMessage with
      | some m => includesS m "Time Limit"
      | none => false) then "Time Limit Exceeded"
  else if er.testCaseResults.any (fun r =>
      match truthy r.errorMessage with
      | some m => !includesS m "Time Limit"
      | none => false) then "Runtime Error"
  else "Wrong Answer"

/-- The fields `submitSolution` selects from the problem row. -/
structure ProblemMeta where
  difficulty : String := "medium"
  timeLimit : Option Nat := none
  memoryLimit : Option Nat := none

/-- The Solution row written for an accepted submission (lines 683-697). -/
structure SolutionData where
  status : String
  executionTime : Nat
  memoryUsed : Nat
  xpEarned : Nat
  isOptimal : Bool
deriving DecidableEq

/-- Terminal outcomes of `submitSolution`. -/
inductive SubmitOutcome where
  | thrown (msg : String)
  | compileRejected (submissionStatus : String) (message : String)
  | plagiarismRejected (message : String)
  | completed (submissionStatus : String) (solution : Option SolutionData) (xp : Nat)
deriving DecidableEq

/-- `submitSolution`: problem fetch (throwing when absent), execution,
compilation-error persistence, plagiarism gate, status determination, then
the Submission row and — for `"Accepted"` — the Solution row, whose
`isOptimal` field is the literal `true`. -/
def submitSolution (userId : String) (problemMeta : Option ProblemMeta)
    (code language : String) (problem : Option Problem)
    (tests : List (TestCase × ExecOutcome)) (wallTime memUsed : Nat) : SubmitOutcome :=
  match problemMeta with
  | none => .thrown "Problem not found"
  | some pm =>
    let (er, _) := executeCode code language problem tests wallTime memUsed
    if er.compilationError then
      .compileRejected "Compilation Error"
        ("Compilation Error: " ++ er.errorMessage.getD "undefined")
    else if plagiarismGate er.potentialPlagiarism er.plagiarismScore then
      .plagiarismRejected "Potential plagiarism detected. Please submit your own work."
    else
      let status := determineStatus er
      let xpEarned := if status = "Accepted" then 100 else 0
      .completed status
        (if status = "Accepted" then
          some { status := status, executionTime := er.executionTime
                 memoryUsed := er.memoryUsed, xpEarned := xpEarned, isOptimal := true }
         else none)
        xpEarned

/-- The user-statistics row. -/
structure UserStats where
  problemsSolved : Nat := 0
  totalSubmissions : Nat := 0
  acceptedSubmissions : Nat := 0
  wrongSubmissions : Nat := 0
  compilationErrors : Nat := 0
  runtimeErrors : Nat := 0
  timeLimitExceeded : Nat := 0
  easySolved : Nat := 0
  mediumSolved : Nat := 0
  hardSolved : Nat := 0
  totalXp : Nat := 0
  streak : Nat := 0

/-- `updateUserStatistics`, create branch (no existing row, lines 753-770):
every counter is status-conditional. -/
def createUserStatistics (status difficulty : String) (xpEarned : Nat) : UserStats :=
  { problemsSolved := if status = "Accepted" then 1 else 0
    totalSubmissions := 1
    acceptedSubmissions := if status = "Accepted" then 1 else 0
    wrongSubmissions := if status = "Wrong Answer" then 1 else 0
    compilationErrors := if status = "Compilation Error" then 1 else 0
    runtimeErrors := if status = "Runtime Error" then 1 else 0
    timeLimitExceeded := if status = "Time Limit Exceeded" then 1 else 0
    easySolved := if status = "Accepted" && difficulty = "easy" then 1 else 0
    mediumSolved := if status = "Accepted" && difficulty = "medium" then 1 else 0
    hardSolved := if status = "Accepted" && difficulty = "hard" then 1 else 0
    totalXp := xpEarned
    streak := 1 }

/-- `updateUserStatistics`, update branch (existing row, lines 774-793):
the five status counters are incremented unconditionally; only the
per-difficulty solved counters consult the status. -/
def updateUserStatisticsExisting (stats : UserStats) (status difficulty : String)
    (xpEarned : Nat) : UserStats :=
  { problemsSolved := stats.problemsSolved
    totalSubmissions := stats.totalSubmissions + 1
    acceptedSubmissions := stats.acceptedSubmissions + 1
    wrongSubmissions := stats.wrongSubmissions + 1
    compilationErrors := stats.compilationErrors + 1
    runtimeErrors := stats.runtimeErrors + 1
    timeLimitExceeded := stats.timeLimitExceeded + 1
    easySolved :=
      if status = "Accepted" && difficulty = "easy" then stats.easySolved + 1
      else stats.easySolved
    mediumSolved :=
      if status = "Accepted" && difficulty = "medium" then stats.mediumSolved + 1
      else stats.mediumSolved
    hardSolved :=
      if status = "Accepted" && difficulty = "hard" then stats.hardSolved + 1
      else stats.hardSolved
    totalXp := stats.totalXp + xpEarned
    streak := stats.streak + 1 }

end ExecService

namespace ValidationUtils

open JsStr

/-- Canonical source text of a two-element numeric array `[a,b]` — the form
`JSON.stringify` gives it and the form the order-insensitivity property
quantifies over. -/
def pairStrL (a b : Nat) : List Char :=
  '[' :: natChars a ++ ',' :: natChars b ++ [']']

/-- `pairStrL` as a string. -/
def pairStr (a b : Nat) : String := ⟨pairStrL a b⟩

end ValidationUtils

namespace JsStr

theorem tblLookup_mem {ps : List (Char × Char)} {c d : Char}
    (h : tblLookup ps c = some d) : (c, d) ∈ ps := by
  induction ps with
  | nil => simp [tblLookup] at h
  | cons p ps ih =>
    obtain ⟨k, v⟩ := p
    by_cases hc : c = k
    · subst hc
      simp [tblLookup] at h
      simp [h]
    · simp only [tblLookup, if_neg hc] at h
      exact List.mem_cons_of_mem _ (ih h)

theorem lcTable_facts : ∀ p ∈ lcTable,
    tblLookup lcTable p.2 = none ∧ isWs p.2 = false ∧ isWs p.1 = false := by decide

theorem lowerChar_idem (c : Char) : lowerChar (lowerChar c) = lowerChar c := by
  unfold lowerChar
  cases h : tblLookup lcTable c with
  | none => simp [h]
  | some d =>
    have hf := lcTable_facts _ (tblLookup_mem h)
    simp [h, hf.1]

theorem isWs_lowerChar (c : Char) : isWs (lowerChar c) = isWs c := by
  unfold lowerChar
  cases h : tblLookup lcTable c with
  | none => simp
  | some d =>
    have hf := lcTable_facts _ (tblLookup_mem h)
    simp [hf.2.1, hf.2.2]

theorem stripWs_lowerList (cs : List Char) :
    stripWs (lowerList cs) = lowerList (stripWs cs) := by
  induction cs with
  | nil => rfl
  | cons c cs ih =>
    simp only [stripWs, lowerList, List.map_cons, List.filter_cons] at *
    rw [isWs_lowerChar]
    cases h : isWs c <;> simp_all

theorem stripWs_idem (cs : List Char) : stripWs (stripWs cs) = stripWs cs := by
  simp [stripWs, List.filter_filter]

theorem lowerList_idem (cs : List Char) : lowerList (lowerList cs) = lowerList cs := by
  induction cs <;> simp_all [lowerList, lowerChar_idem]

end JsStr

namespace ValidationUtils

open JsStr

theorem normalizeGenericOutput_idem (x : String) :
    normalizeGenericOutput (normalizeGenericOutput x) = normalizeGenericOutput x := by
  unfold normalizeGenericOutput
  rw [show (⟨lowerList (stripWs x.data)⟩ : String).data = lowerList (stripWs x.data) from rfl]
  rw [stripWs_lowerList, stripWs_idem, lowerList_idem]

theorem normalizeOutputE_generic (output lang ty : String)
    (h1 : ty ≠ "two-sum") (h2 : ty ≠ "array") (h3 : ty ≠ "string") :
    normalizeOutputE output lang ty =
      .ok (if output = "" then "" else normalizeGenericOutput output) := by
  unfold normalizeOutputE
  by_cases h : output = ""
  · simp [h]
  · rw [if_neg h, if_neg h]
    split
    · exact absurd rfl h1
    · exact absurd rfl h2
    · exact absurd rfl h3
    · rfl

theorem normalizeOutput_generic (output lang ty : String)
    (h1 : ty ≠ "two-sum") (h2 : ty ≠ "array") (h3 : ty ≠ "string") :
    normalizeOutput output lang ty =
      if output = "" then "" else normalizeGenericOutput output := by
  unfold normalizeOutput
  rw [normalizeOutputE_generic output lang ty h1 h2 h3]

/-- Claim C6 (counterexample): normalization is not idempotent for every
shape tag.  For the `two-sum` tag, `"a,b"` normalizes to `["a","b"]`, whose
own normalization splits on the embedded commas and yields a different
string; the `string` tag strips one quote layer per pass, so `""a""` keeps
shrinking. -/
theorem normalize_idem_fails_twoSum_string :
    normalizeOutput (normalizeOutput "a,b" "javascript" "two-sum") "javascript" "two-sum" ≠
      normalizeOutput "a,b" "javascript" "two-sum" ∧
    normalizeOutput (normalizeOutput "\"\"a\"\"" "javascript" "string") "javascript" "string" ≠
      normalizeOutput "\"\"a\"\"" "javascript" "string" := by
  constructor <;> decide

/-- Claim C6 (amended): `normalizeOutput` is idempotent for every problem
type that dispatches to the generic normalization (every tag other than
`two-sum`, `array` and `string`), for every input string and language. -/
theorem normalize_idem_generic_shape (x lang ty : String)
    (h1 : ty ≠ "two-sum") (h2 : ty ≠ "array") (h3 : ty ≠ "string") :
    normalizeOutput (normalizeOutput x lang ty) lang ty =
      normalizeOutput x lang ty := by
  rw [normalizeOutput_generic x lang ty h1 h2 h3]
  by_cases hx : x = ""
  · simp [hx, normalizeOutput_generic _ lang ty h1 h2 h3]
  · rw [if_neg hx, normalizeOutput_generic _ lang ty h1 h2 h3]
    by_cases hg : normalizeGenericOutput x = ""
    · rw [if_pos hg, hg]
    · rw [if_neg hg, normalizeGenericOutput_idem]

/-- Witness for `normalize_idem_generic_shape` at the `general` tag. -/
theorem normalize_idem_generic_shape_witness :
    normalizeOutput (normalizeOutput " A b" "javascript" "general") "javascript" "general" =
      normalizeOutput " A b" "javascript" "general" :=
  normalize_idem_generic_shape " A b" "javascript" "general"
    (by decide) (by decide) (by decide)

theorem jsTry_ok {α : Type} (x : Except String α) (h : String → Except String α)
    (hcatch : ∀ e, ∃ v, h e = .ok v) : ∃ v, Js.jsTry x h = .ok v := by
  cases x with
  | ok v => exact ⟨v, rfl⟩
  | error e => simpa [Js.jsTry] using hcatch e

theorem normalizeTwoSumCommaPath_ok (o : String) :
    ∃ s, normalizeTwoSumCommaPath o = .ok s := by
  unfold normalizeTwoSumCommaPath
  split
  · dsimp only
    split <;> exact ⟨_, rfl⟩
  · exact ⟨_, rfl⟩

theorem normalizeTwoSumOutputE_ok (o : String) :
    ∃ s, normalizeTwoSumOutputE o = .ok s := by
  unfold normalizeTwoSumOutputE
  exact jsTry_ok _ _ (fun e => ⟨_, rfl⟩)

theorem normalizeArrayOutputE_ok (o : String) :
    ∃ s, normalizeArrayOutputE o = .ok s := by
  unfold normalizeArrayOutputE
  split
  · split <;> exact ⟨_, rfl⟩
  · split <;> exact ⟨_, rfl⟩

theorem normalizeOutputE_ok (o l t : String) :
    ∃ s, normalizeOutputE o l t = .ok s := by
  unfold normalizeOutputE
  split
  · exact ⟨_, rfl⟩
  · apply jsTry_ok
    exact fun e => ⟨_, rfl⟩

theorem compareTwoSumOutputsE_ok (e a : String) :
    ∃ r, compareTwoSumOutputsE e a = .ok r := by
  unfold compareTwoSumOutputsE
  apply jsTry_ok
  intro m
  split <;> exact ⟨_, rfl⟩

theorem compareOutputsE_ok (e a t : String) :
    ∃ r, compareOutputsE e a t = .ok r := by
  unfold compareOutputsE
  split
  · exact compareTwoSumOutputsE_ok e a
  · exact ⟨_, rfl⟩

/-- Claim C4: normalization and comparison are total.  The `Except`-monad
embeddings of `normalizeOutput` and `compareOutputs` — in which every
failing parse step is an explicit `throw` and every source `try/catch` is a
`jsTry` — never escape with an error on any input, so each call produces
exactly the string / `{passed, diff?}` record of its pure view: parse
failures degrade into the generic-fallback branches instead of
propagating. -/
theorem normalize_compare_total (o l t e a : String) :
    normalizeOutputE o l t = .ok (normalizeOutput o l t) ∧
    compareOutputsE e a t = .ok (compareOutputs e a t) := by
  constructor
  · obtain ⟨s, hs⟩ := normalizeOutputE_ok o l t
    rw [hs]
    unfold normalizeOutput
    rw [hs]
  · obtain ⟨r, hr⟩ := compareOutputsE_ok e a t
    rw [hr]
    unfold compareOutputs
    rw [hr]

end ValidationUtils

namespace JsStr

theorem digitChar_isDigit {d : Nat} (h : d < 10) : (digitChar d).isDigit = true := by
  interval_cases d <;> decide

theorem digitChar_toNat {d : Nat} (h : d < 10) : (digitChar d).toNat = 48 + d := by
  interval_cases d <;> decide

theorem digitChar_ne_zero {d : Nat} (h : d < 10) (hd : d ≠ 0) : digitChar d ≠ '0' := by
  interval_cases d <;> simp_all <;> decide

theorem isDigit_ne {c x : Char} (h : c.isDigit = true) (hx : x.isDigit = false) :
    c ≠ x := by
  intro he
  subst he
  rw [h] at hx
  cases hx

theorem isWs_of_isDigit {c : Char} (h : c.isDigit = true) : isWs c = false := by
  have h1 := isDigit_ne h (show (' ').isDigit = false by decide)
  have h2 := isDigit_ne h (show ('\t').isDigit = false by decide)
  have h3 := isDigit_ne h (show ('\n').isDigit = false by decide)
  have h4 := isDigit_ne h (show ('\x0d').isDigit = false by decide)
  have h5 := isDigit_ne h (show ('\x0b').isDigit = false by decide)
  have h6 := isDigit_ne h (show ('\x0c').isDigit = false by decide)
  simp [isWs, h1, h2, h3, h4, h5, h6]

theorem parseDigits_append_one (xs : List Char) (c : Char) :
    parseDigits (xs ++ [c]) = parseDigits xs * 10 + (c.toNat - 48) := by
  simp [parseDigits, List.foldl_append]

theorem natCharsAux_spec :
    ∀ f n, n < 10 ^ (f + 1) →
      natCharsAux (f + 1) n ≠ [] ∧
      (∀ c ∈ natCharsAux (f + 1) n, c.isDigit = true) ∧
      parseDigits (natCharsAux (f + 1) n) = n ∧
      (n ≠ 0 → (natCharsAux (f + 1) n).head? ≠ some '0') := by
  intro f
  induction f with
  | zero =>
    intro n hn
    have h10 : n < 10 := by simpa using hn
    refine ⟨by simp [natCharsAux, h10], ?_, ?_, ?_⟩
    · intro c hc
      simp [natCharsAux, h10] at hc
      subst hc
      exact digitChar_isDigit h10
    · simp [natCharsAux, h10, parseDigits, digitChar_toNat h10]
    · intro hne
      simp [natCharsAux, h10]
      exact digitChar_ne_zero h10 hne
  | succ f ih =>
    intro n hn
    by_cases h10 : n < 10
    · refine ⟨by simp [natCharsAux, h10], ?_, ?_, ?_⟩
      · intro c hc
        simp [natCharsAux, h10] at hc
        subst hc
        exact digitChar_isDigit h10
      · simp [natCharsAux, h10, parseDigits, digitChar_toNat h10]
      · intro hne
        simp [natCharsAux, h10]
        exact digitChar_ne_zero h10 hne
    · have hdiv : n / 10 < 10 ^ (f + 1) := by
        rw [Nat.div_lt_iff_lt_mul (by norm_num : 0 < 10)]
        calc n < 10 ^ (f + 1 + 1) := hn
        _ = 10 ^ (f + 1) * 10 := by ring
      obtain ⟨hne, hdig, hval, hhead⟩ := ih (n / 10) hdiv
      have hmod : n % 10 < 10 := Nat.mod_lt _ (by norm_num)
      have hstep : natCharsAux (f + 1 + 1) n =
          natCharsAux (f + 1) (n / 10) ++ [digitChar (n % 10)] := by
        rw [natCharsAux]
        simp [h10]
      refine ⟨?_, ?_, ?_, ?_⟩
      · rw [hstep]
        simp
      · intro c hc
        rw [hstep] at hc
        rcases List.mem_append.mp hc with h | h
        · exact hdig c h
        · simp at h
          subst h
          exact digitChar_isDigit hmod
      · rw [hstep, parseDigits_append_one, hval, digitChar_toNat hmod]
        omega
      · intro _
        rw [hstep]
        obtain ⟨x, xs, hx⟩ := List.exists_cons_of_ne_nil hne
        rw [hx]
        simp only [List.cons_append, List.head?_cons]
        have hx0 : (natCharsAux (f + 1) (n / 10)).head? ≠ some '0' := by
          apply hhead
          omega
        rw [hx] at hx0
        simpa using hx0

theorem natChars_spec (n : Nat) :
    natChars n ≠ [] ∧
    (∀ c ∈ natChars n, c.isDigit = true) ∧
    parseDigits (natChars n) = n ∧
    (n ≠ 0 → (natChars n).head? ≠ some '0') := by
  have hpow : n < 10 ^ (n + 1) := by
    calc n < 10 ^ n := Nat.lt_pow_self (by norm_num) n
    _ ≤ 10 ^ (n + 1) := Nat.pow_le_pow_right (by norm_num) (Nat.le_succ n)
  exact natCharsAux_spec n n hpow

end JsStr

namespace Js

open JsStr

theorem spanDigits_append (ds rest : List Char)
    (hds : ∀ c ∈ ds, c.isDigit = true)
    (hrest : ∀ c, rest.head? = some c → c.isDigit = false) :
    Js.spanDigits (ds ++ rest) = (ds, rest) := by
  induction ds with
  | nil =>
    simp only [List.nil_append]
    cases rest with
    | nil => rfl
    | cons c r =>
      have hc := hrest c rfl
      simp [Js.spanDigits, List.takeWhile_cons, List.dropWhile_cons, hc]
  | cons d ds ih =>
    have hd : d.isDigit = true := hds d (by simp)
    have ih2 := ih (fun c hc => hds c (by simp [hc]))
    have h1 : (ds ++ rest).takeWhile Char.isDigit = ds := congrArg Prod.fst ih2
    have h2 : (ds ++ rest).dropWhile Char.isDigit = rest := congrArg Prod.snd ih2
    simp [Js.spanDigits, List.takeWhile_cons, List.dropWhile_cons, hd, h1, h2]

end Js

namespace Js

open JsStr

theorem parseValue_digits (f : Nat) (ds rest : List Char) (hne : ds ≠ [])
    (hds : ∀ c ∈ ds, c.isDigit = true)
    (hrest : ∀ c, rest.head? = some c → c.isDigit = false) :
    parseValue (f + 1) (ds ++ rest) = .ok (.num (parseDigits ds : Int), rest) := by
  obtain ⟨d, ds', hd⟩ := List.exists_cons_of_ne_nil hne
  subst hd
  have hdd : d.isDigit = true := hds d (by simp)
  have hbr : d ≠ '[' := isDigit_ne hdd (by decide)
  have hq : d ≠ '"' := isDigit_ne hdd (by decide)
  have ht : d ≠ 't' := isDigit_ne hdd (by decide)
  have hf : d ≠ 'f' := isDigit_ne hdd (by decide)
  have hn : d ≠ 'n' := isDigit_ne hdd (by decide)
  have hm : d ≠ '-' := isDigit_ne hdd (by decide)
  have hspan := spanDigits_append (d :: ds') rest hds hrest
  rw [List.cons_append, parseValue]
  simp only [startsWithL, hbr, hq, ht, hf, hn, hm, hdd, decide_eq_true_eq, if_false,
    Bool.false_and, if_true, ite_false, ite_true, decide_False, Bool.false_eq_true,
    ← List.cons_append, hspan]

end Js

namespace ValidationUtils

open JsStr Js

theorem dropWhile_isWs_digits (a : Nat) (X : List Char) :
    (natChars a ++ X).dropWhile isWs = natChars a ++ X := by
  obtain ⟨hne, hdig, -, -⟩ := natChars_spec a
  obtain ⟨d, rest, hd⟩ := List.exists_cons_of_ne_nil hne
  have hdd : d.isDigit = true := hdig d (by rw [hd]; simp)
  rw [hd, List.cons_append, List.dropWhile_cons, isWs_of_isDigit hdd]
  simp

theorem parseValue_pairStrL (f a b : Nat) :
    parseValue (f + 4) (pairStrL a b) =
      .ok (.arr [.num (a : Int), .num (b : Int)], []) := by
  obtain ⟨hAne, hAdig, hAval, -⟩ := natChars_spec a
  obtain ⟨hBne, hBdig, hBval, -⟩ := natChars_spec b
  have hR : pairStrL a b = '[' :: (natChars a ++ (',' :: (natChars b ++ [']']))) := by
    simp [pairStrL]
  have hpv1 : parseValue (f + 1 + 1) (natChars a ++ (',' :: (natChars b ++ [']']))) =
      .ok (.num (a : Int), ',' :: (natChars b ++ [']'])) := by
    rw [parseValue_digits (f + 1) _ _ hAne hAdig
      (by intro c hc; simp at hc; subst hc; decide), hAval]
  have hpv2 : parseValue (f + 1) (natChars b ++ [']']) =
      .ok (.num (b : Int), [']']) := by
    rw [show f + 1 = f + 0 + 1 from rfl]
    rw [parseValue_digits (f + 0) _ _ hBne hBdig
      (by intro c hc; simp at hc; subst hc; decide), hBval]
  rw [hR]
  rw [show f + 4 = (f + 3) + 1 from rfl, parseValue]
  rw [if_pos rfl]
  rw [dropWhile_isWs_digits]
  obtain ⟨da, ras, hda⟩ := List.exists_cons_of_ne_nil hAne
  have hdad : da.isDigit = true := hAdig da (by rw [hda]; simp)
  have hdane : da ≠ ']' := isDigit_ne hdad (by decide)
  dsimp only
  split
  · rename_i r2 heq
    rw [hda, List.cons_append] at heq
    simp at heq
    exact absurd heq.1 hdane
  · rw [show f + 3 = (f + 2) + 1 from rfl, parseElems]
    rw [show f + 2 = (f + 1) + 1 from rfl]
    rw [hpv1]
    simp only
    rw [List.dropWhile_cons]
    simp only [show isWs ',' = false from rfl, Bool.false_eq_true, if_false]
    rw [dropWhile_isWs_digits]
    rw [show f + 1 + 1 = (f + 1) + 1 from rfl, parseElems]
    rw [hpv2]
    simp only
    rw [List.dropWhile_cons]
    simp only [show isWs ']' = false from rfl, Bool.false_eq_true, if_false]
    simp

end ValidationUtils

namespace ValidationUtils

open JsStr Js

theorem pairAt_pairStrL (a b : Nat) :
    pairAt (pairStrL a b) = some (natChars a, natChars b) := by
  obtain ⟨hAne, hAdig, -, -⟩ := natChars_spec a
  obtain ⟨hBne, hBdig, -, -⟩ := natChars_spec b
  have hR : pairStrL a b = '[' :: (natChars a ++ (',' :: (natChars b ++ [']']))) := by
    simp [pairStrL]
  have hspanB := spanDigits_append (natChars b) [']'] hBdig
    (fun c hc => by simp at hc; subst hc; decide)
  rw [hR]
  unfold pairAt
  dsimp only
  rw [if_pos rfl, dropWhile_isWs_digits,
    spanDigits_append _ _ hAdig (fun c hc => by simp at hc; subst hc; decide)]
  simp [hAne, hBne, dropWhile_isWs_digits, hspanB, List.dropWhile_cons, isWs]

theorem findPairDigits_pairStrL (a b : Nat) :
    findPairDigits (pairStrL a b) = some (natChars a, natChars b) := by
  have hp := pairAt_pairStrL a b
  have hR : pairStrL a b = '[' :: (natChars a ++ (',' :: (natChars b ++ [']']))) := by
    simp [pairStrL]
  rw [hR] at hp ⊢
  rw [findPairDigits, hp]

theorem jsonParse_pairStr (a b : Nat) :
    jsonParse (pairStr a b) = .ok (.arr [.num (a : Int), .num (b : Int)]) := by
  unfold jsonParse
  have hdata : (pairStr a b).data = pairStrL a b := rfl
  have hR : pairStrL a b = '[' :: (natChars a ++ (',' :: (natChars b ++ [']']))) := by
    simp [pairStrL]
  have hdw : (pairStrL a b).dropWhile isWs = pairStrL a b := by
    rw [hR, List.dropWhile_cons]
    simp [show isWs '[' = false from rfl]
  rw [hdata, hdw]
  have hlen : (pairStrL a b).length + 2 =
      ((natChars a).length + (natChars b).length + 1) + 4 := by
    simp [pairStrL]
    omega
  rw [hlen, parseValue_pairStrL]
  simp

theorem leadZero_natChars (n : Nat) : leadZero (natChars n) = false := by
  by_cases h0 : n = 0
  · subst h0
    decide
  · obtain ⟨hne, -, -, hhead⟩ := natChars_spec n
    have hh := hhead h0
    unfold leadZero
    split
    · rename_i x xs heq
      rw [heq] at hh
      simp at hh
    · rfl

theorem stringify_pair (x y : Nat) :
    stringifyS (.arr [.num (x : Int), .num (y : Int)]) = pairStr x y := by
  show (⟨stringifyJ (.arr [.num (x : Int), .num (y : Int)])⟩ : String) = ⟨pairStrL x y⟩
  have : stringifyJ (.arr [.num (x : Int), .num (y : Int)]) = pairStrL x y := by
    rw [stringifyJ]
    rw [stringifyList, stringifyList]
    simp [stringifyJ, intStr, natStr, pairStrL]
  rw [this]

end ValidationUtils

namespace ValidationUtils

open JsStr Js

theorem hasSubstr_last (cs : List Char) (c : Char) :
    hasSubstrL (cs ++ [c]) [c] = true := by
  induction cs with
  | nil => simp [hasSubstrL, startsWithL]
  | cons x xs ih => simp [hasSubstrL, List.cons_append, ih]

theorem normTwoSum_pairStr (a b : Nat) :
    normalizeTwoSumOutputE (pairStr a b) = .ok (pairStr (min a b) (max a b)) := by
  obtain ⟨-, -, hAval, -⟩ := natChars_spec a
  obtain ⟨-, -, hBval, -⟩ := natChars_spec b
  have hinc1 : includesS (pairStr a b) "[" = true := by
    simp [includesS, pairStr, pairStrL, hasSubstrL, startsWithL]
  have hinc2 : includesS (pairStr a b) "]" = true := by
    have hshape : (pairStr a b).data = ('[' :: natChars a ++ ',' :: natChars b) ++ [']'] := by
      simp [pairStr, pairStrL]
    have h := hasSubstr_last ('[' :: natChars a ++ ',' :: natChars b) ']'
    simp only [includesS, hshape]
    exact h
  have hfind : findPairDigits (pairStr a b).data = some (natChars a, natChars b) := by
    rw [show (pairStr a b).data = pairStrL a b from rfl, findPairDigits_pairStrL]
  unfold normalizeTwoSumOutputE
  rw [hinc1, hinc2]
  simp only [Bool.and_self, if_true]
  rw [hfind]
  simp only [leadZero_natChars, Bool.or_self, Bool.false_eq_true, if_false]
  rw [hAval, hBval]
  have hsort : stringifyS (.arr (sortPair (a : Int) (b : Int))) =
      pairStr (min a b) (max a b) := by
    unfold sortPair
    by_cases hab : a ≤ b
    · rw [if_pos (by exact_mod_cast hab : (a : Int) ≤ (b : Int))]
      rw [stringify_pair, min_eq_left hab, max_eq_right hab]
    · have hba : b ≤ a := le_of_not_le hab
      rw [if_neg (by exact_mod_cast hab : ¬ (a : Int) ≤ (b : Int))]
      rw [stringify_pair, min_eq_right hba, max_eq_left hba]
  rw [hsort]
  rfl

end ValidationUtils

namespace ValidationUtils

open JsStr Js

theorem normalizeOutputE_pairStr (a b : Nat) (lang : String) :
    normalizeOutputE (pairStr a b) lang "two-sum" =
      .ok (pairStr (min a b) (max a b)) := by
  have hne : pairStr a b ≠ "" := by
    intro h
    have hd : (pairStr a b).data = [] := by rw [h]
    simp [pairStr, pairStrL] at hd
  unfold normalizeOutputE
  rw [if_neg hne]
  show Js.jsTry (normalizeTwoSumOutputE (pairStr a b))
    (fun _ => .ok (jsTrim (pairStr a b))) = _
  rw [normTwoSum_pairStr]
  rfl

theorem normalizeOutput_pairStr (a b : Nat) (lang : String) :
    normalizeOutput (pairStr a b) lang "two-sum" = pairStr (min a b) (max a b) := by
  unfold normalizeOutput
  rw [normalizeOutputE_pairStr]

theorem compareParsedTwoSum_pair_self (x y : Int) :
    compareParsedTwoSum (.arr [.num x, .num y]) (.arr [.num x, .num y]) =
      { passed := true } := by
  unfold compareParsedTwoSum
  simp

theorem compareTwoSum_pairStr (m M : Nat) :
    compareTwoSumOutputsE (pairStr m M) (pairStr m M) = .ok { passed := true } := by
  unfold compareTwoSumOutputsE
  rw [jsonParse_pairStr]
  simp [Js.jsTry, compareParsedTwoSum_pair_self]

/-- Claim C3: order-insensitivity of the two-sum comparison.  Any two
two-element numeric array outputs that are equal as unordered pairs — both
rendered in the canonical bracketed form — normalize identically under the
`two-sum` problem type and compare as passed, for every language tag. -/
theorem twoSum_compare_order_insensitive (a b c d : Nat) (lang : String)
    (h : (a = c ∧ b = d) ∨ (a = d ∧ b = c)) :
    (compareOutputs (normalizeOutput (pairStr a b) lang "two-sum")
      (normalizeOutput (pairStr c d) lang "two-sum") "two-sum").passed = true := by
  rw [normalizeOutput_pairStr, normalizeOutput_pairStr]
  have hmm : min a b = min c d ∧ max a b = max c d := by
    rcases h with ⟨h1, h2⟩ | ⟨h1, h2⟩ <;> subst h1 <;> subst h2 <;>
      constructor <;> simp [min_comm, max_comm]
  rw [hmm.1, hmm.2]
  unfold compareOutputs compareOutputsE
  rw [if_pos rfl, compareTwoSum_pairStr]

/-- Witness for `twoSum_compare_order_insensitive`: expected `[0,1]`,
actual `[1,0]`. -/
theorem twoSum_compare_order_insensitive_witness :
    (compareOutputs (normalizeOutput (pairStr 0 1) "javascript" "two-sum")
      (normalizeOutput (pairStr 1 0) "javascript" "two-sum") "two-sum").passed = true :=
  twoSum_compare_order_insensitive 0 1 1 0 "javascript" (Or.inr ⟨rfl, rfl⟩)

end ValidationUtils

namespace OutputValidator

open JsStr Js

theorem mem_dedupeAux (l : List String) :
    ∀ (seen : List String) (k : String), k ∈ dedupeAux l seen ↔ k ∈ l ∧ k ∉ seen := by
  induction l with
  | nil => intro seen k; simp [dedupeAux]
  | cons x xs ih =>
    intro seen k
    by_cases hx : seen.contains x
    · rw [dedupeAux, if_pos hx, ih]
      have hxs : x ∈ seen := by simpa using hx
      constructor
      · rintro ⟨h1, h2⟩
        exact ⟨List.mem_cons_of_mem _ h1, h2⟩
      · rintro ⟨h1, h2⟩
        rcases List.mem_cons.mp h1 with rfl | h1
        · exact absurd hxs h2
        · exact ⟨h1, h2⟩
    · rw [dedupeAux, if_neg hx]
      have hxs : x ∉ seen := by simpa using hx
      constructor
      · intro hmem
        rcases List.mem_cons.mp hmem with rfl | h1
        · exact ⟨List.mem_cons_self _ _, hxs⟩
        · obtain ⟨h2, h3⟩ := (ih _ _).mp h1
          refine ⟨List.mem_cons_of_mem _ h2, ?_⟩
          intro hk
          exact h3 (List.mem_cons_of_mem _ hk)
      · rintro ⟨h1, h2⟩
        rcases List.mem_cons.mp h1 with rfl | h1
        · exact List.mem_cons_self _ _
        · by_cases hkx : k = x
          · subst hkx
            exact List.mem_cons_self _ _
          · apply List.mem_cons_of_mem
            exact (ih _ _).mpr ⟨h1, by simp [h2, hkx]⟩

theorem mem_dedupeKeys (l : List String) (k : String) :
    k ∈ dedupeKeys l ↔ k ∈ l := by
  rw [dedupeKeys, mem_dedupeAux]
  simp

theorem mem_missingOf (xs ys : List Json) (k : String) :
    k ∈ missingOf xs ys ↔ k ∈ keysOf xs ∧ k ∉ keysOf ys := by
  simp [missingOf, List.mem_filter, mem_dedupeKeys]

theorem mem_extraOf (xs ys : List Json) (k : String) :
    k ∈ extraOf xs ys ↔ k ∈ keysOf ys ∧ k ∉ keysOf xs := by
  simp [extraOf, List.mem_filter, mem_dedupeKeys]

end OutputValidator

namespace OutputValidator

open JsStr Js

/-- Claim C7 (amended): the set-difference array diff belongs to the
output-validator module, which the judging pipeline never imports.  For
output-validator's `compareOutputs`, whenever the two sides differ, the
expected side is bracket-delimited and both sides parse as JSON arrays, the
comparison fails with the array diff: a length-mismatch line exactly when
the lengths differ, and "missing" / "extra" element lines computed by set
difference over the stringified elements (first occurrences, insertion
order). -/
theorem outputValidator_array_set_diff (e a : String) (xs ys : List Json)
    (hea : e ≠ a)
    (hbr1 : startsWithS e "[" = true) (hbr2 : endsWithS e "]" = true)
    (hpe : jsonParse e = .ok (.arr xs))
    (hpa : jsonParse a = .ok (.arr ys)) :
    (compareOutputs e a).passed = false ∧
    (compareOutputs e a).diff = some ("Differences found:\n" ++ arrayDiffBody xs ys) ∧
    (∀ k, k ∈ missingOf xs ys ↔ k ∈ keysOf xs ∧ k ∉ keysOf ys) ∧
    (∀ k, k ∈ extraOf xs ys ↔ k ∈ keysOf ys ∧ k ∉ keysOf xs) ∧
    (xs.length ≠ ys.length → ∃ rest, arrayDiffBody xs ys =
      "- Array length mismatch: expected " ++ natStr xs.length ++ ", got " ++
        natStr ys.length ++ "\n" ++ rest) ∧
    (xs.length = ys.length → arrayDiffBody xs ys =
      (if missingOf xs ys ≠ [] then
        "- Missing elements: " ++ joinCommaSp (missingOf xs ys) ++ "\n" else "") ++
      (if extraOf xs ys ≠ [] then
        "- Extra elements: " ++ joinCommaSp (extraOf xs ys) ++ "\n" else "")) := by
  have hcmp : compareOutputs e a =
      { passed := false, diff := some ("Differences found:\n" ++ arrayDiffBody xs ys) } := by
    unfold compareOutputs
    rw [if_neg hea]
    rw [hbr1, hbr2]
    simp only [Bool.and_self, Bool.true_or, Bool.or_true, if_true]
    rw [hpe, hpa]
  refine ⟨by rw [hcmp], by rw [hcmp], mem_missingOf xs ys, mem_extraOf xs ys, ?_, ?_⟩
  · intro hlen
    refine ⟨(if missingOf xs ys ≠ [] then
        "- Missing elements: " ++ joinCommaSp (missingOf xs ys) ++ "\n" else "") ++
      (if extraOf xs ys ≠ [] then
        "- Extra elements: " ++ joinCommaSp (extraOf xs ys) ++ "\n" else ""), ?_⟩
    unfold arrayDiffBody
    rw [if_pos hlen]
    simp [String.append_assoc]
  · intro hlen
    unfold arrayDiffBody
    rw [if_neg (by simp [hlen])]
    simp

/-- Witness for `outputValidator_array_set_diff`: expected `[1,2]`, actual
`[2,3]`. -/
theorem outputValidator_array_set_diff_witness :
    ("[1,2]" ≠ "[2,3]") ∧
    (compareOutputs "[1,2]" "[2,3]").passed = false ∧
    (compareOutputs "[1,2]" "[2,3]").diff =
      some ("Differences found:\n" ++ arrayDiffBody [.num 1, .num 2] [.num 2, .num 3]) := by
  have h := outputValidator_array_set_diff "[1,2]" "[2,3]"
    [.num 1, .num 2] [.num 2, .num 3]
    (by decide) (by decide) (by decide) (by rfl) (by rfl)
  exact ⟨by decide, h.1, h.2.1⟩

/-- Claim C7 (counterexample): at a concrete mismatching pair of array
outputs, the comparator the judging pipeline actually imports
(validation-utils) does not parse the sides as sequences: its diff is the
generic first-difference report and contains no "Missing elements"
set-difference line. -/
theorem pipeline_array_comparator_no_set_diff :
    (ValidationUtils.compareOutputs "[1,2]" "[3,4]" "array").passed = false ∧
    (ValidationUtils.compareOutputs "[1,2]" "[3,4]" "array").diff =
      some ("Differences found:\n- Expected: [1,2]\n- Actual: [3,4]\n" ++
        "- First difference at position 1: expected \x271\x27, got \x273\x27\n") ∧
    includesS ((ValidationUtils.compareOutputs "[1,2]" "[3,4]" "array").diff.getD "")
      "Missing elements" = false := by
  refine ⟨by decide, by decide, by decide⟩

end OutputValidator

namespace ExecService

open JsStr Js ValidationUtils

theorem validateTestCases_compile_fail (code language : String) (problem : Option Problem)
    (tests : List (TestCase × ExecOutcome))
    (h : (compileCode code language).success = false) :
    validateTestCases code language problem tests =
      ({ testCasesPassed := 0, totalTestCases := 0, results := [], isOptimal := false
         compilationError := true
         compilationErrorMessage := (compileCode code language).error
         feedback :=
           ["Your code failed to compile. Check the error message for details.",
            "Make sure all syntax is correct for the chosen language."] }, []) := by
  unfold validateTestCases
  simp [h]

/-- Claim C5: compilation short-circuit.  When the static checker fails,
the judge reports zero total and passed test cases with an empty result
list, no test case is ever handed to the executor, and the surfaced
`ExecutionResult` carries the same zero counts. -/
theorem compile_fail_short_circuit (code language : String) (problem : Option Problem)
    (tests : List (TestCase × ExecOutcome)) (wallTime memUsed : Nat)
    (h : (compileCode code language).success = false) :
    (validateTestCases code language problem tests).1.totalTestCases = 0 ∧
    (validateTestCases code language problem tests).1.testCasesPassed = 0 ∧
    (validateTestCases code language problem tests).1.results = [] ∧
    (validateTestCases code language problem tests).2 = [] ∧
    (executeCode code language problem tests wallTime memUsed).1.totalTestCases = 0 ∧
    (executeCode code language problem tests wallTime memUsed).1.testCasesPassed = 0 ∧
    (executeCode code language problem tests wallTime memUsed).1.testCaseResults = [] := by
  have hv := validateTestCases_compile_fail code language problem tests h
  have he : executeCode code language problem tests wallTime memUsed =
      ({ success := false, executionTime := 0, memoryUsed := 0
         testCasesPassed := 0, totalTestCases := 0
         testCaseResults := [], errorMessage := (compileCode code language).error
         compilationError := true }, []) := by
    unfold executeCode
    rw [hv]
    rfl
  rw [hv, he]
  exact ⟨rfl, rfl, rfl, rfl, rfl, rfl, rfl⟩

/-- Witness for `compile_fail_short_circuit`: a Java submission with no
`class` keyword fails the static check. -/
theorem compile_fail_short_circuit_witness :
    (compileCode "int x = 5" "java").success = false ∧
    (validateTestCases "int x = 5" "java" (some {})
      [({ input := "i", expectedOutput := "o" }, { output := "o", time := 1 })]).2 = [] :=
  ⟨by decide,
    (compile_fail_short_circuit "int x = 5" "java" (some {})
      [({ input := "i", expectedOutput := "o" }, { output := "o", time := 1 })] 1 7
      (by decide)).2.2.2.1⟩

end ExecService

namespace ExecService

open JsStr Js ValidationUtils

/-- Claim C1 (code bug): a judge run with no compilation error and no
plagiarism block, whose single test case exceeded the 2000 ms limit with a
measured 2500 ms (so not every test case passed), carries the
time-limit-exceeded message produced by `checkPerformanceLimits` — yet the
submission status comes out `"Runtime Error"`, not `"Time Limit Exceeded"`:
the status test looks for the substring `"Time Limit"` while the message
says `"Time limit"`. -/
theorem tle_run_status_is_runtime_error :
    (executeTestCase { input := "[2,7,11,15]\n9", expectedOutput := "[0,1]" }
        { output := "[1,0]", error := none, time := 2500 }
        "javascript" "two-sum" 2000 128).errorMessage =
      some "Time limit exceeded: 2500.00ms (limit: 2000.00ms)" ∧
    submitSolution "user-1" (some {}) "var x = 1" "javascript"
        (some { code := some "two-sum", timeLimit := some 2000 })
        [({ input := "[2,7,11,15]\n9", expectedOutput := "[0,1]" },
          { output := "[1,0]", error := none, time := 2500 })] 1 7 =
      .completed "Runtime Error" none 0 ∧
    "Runtime Error" ≠ "Time Limit Exceeded" := by
  refine ⟨by decide, by decide, by decide⟩

/-- Claim C2 (code bug): when the problem row exists but its test-case list
is empty, `validateTestCases` reports "No test cases found for this
problem", yet the run is not failed: `executeCode` counts `0 = 0` as
success, `submitSolution` determines status `"Accepted"` and persists both
the submission and a solution row. -/
theorem empty_tests_accepted :
    (validateTestCases "var x = 1" "javascript" (some {}) []).1.feedback =
      ["No test cases found for this problem"] ∧
    submitSolution "user-1" (some {}) "var x = 1" "javascript" (some {}) [] 1 7 =
      .completed "Accepted"
        (some { status := "Accepted", executionTime := 1, memoryUsed := 7
                xpEarned := 100, isOptimal := true }) 100 := by
  refine ⟨by decide, by decide⟩

/-- Claim C9 (code bug): for a user with existing statistics, the update
branch increments every status counter — accepted, wrong, compilation,
runtime, time-limit — on a single `"Wrong Answer"` submission, while the
create branch (shown alongside) is status-conditional as the claim
describes. -/
theorem stats_update_increments_all_counters :
    updateUserStatisticsExisting
      { problemsSolved := 3, totalSubmissions := 10, acceptedSubmissions := 4
        wrongSubmissions := 5, compilationErrors := 0, runtimeErrors := 1
        timeLimitExceeded := 0, easySolved := 1, mediumSolved := 2, hardSolved := 0
        totalXp := 400, streak := 2 } "Wrong Answer" "easy" 0 =
      { problemsSolved := 3, totalSubmissions := 11, acceptedSubmissions := 5
        wrongSubmissions := 6, compilationErrors := 1, runtimeErrors := 2
        timeLimitExceeded := 1, easySolved := 1, mediumSolved := 2, hardSolved := 0
        totalXp := 400, streak := 3 } ∧
    (createUserStatistics "Wrong Answer" "easy" 0).acceptedSubmissions = 0 ∧
    (createUserStatistics "Wrong Answer" "easy" 0).wrongSubmissions = 1 := by
  refine ⟨rfl, rfl, rfl⟩

/-- Claim C8 (counterexample): a plagiarism similarity score strictly above
`0.8` does not by itself block a submission — the gate also requires the
screener's Boolean flag; and the warning in the execution output is keyed
on the flag alone, firing even for a score of `0.3`, below the claimed
`0.5` no-action threshold. -/
theorem plagiarism_gate_not_score_only :
    plagiarismGate (some false) (some (17/20 : ℚ)) = false ∧
    ((17 : ℚ)/20 > 4/5) ∧
    plagiarismWarningShown
      { success := true, executionTime := 1, memoryUsed := 7, testCasesPassed := 1
        totalTestCases := 1, testCaseResults := []
        potentialPlagiarism := some true, plagiarismScore := some (3/10) } = true ∧
    ((3 : ℚ)/10 ≤ 1/2) := by
  refine ⟨by decide, by norm_num, by decide, by norm_num⟩

/-- Claim C8 (amended): the plagiarism policy the code implements: a
submission is blocked iff the screener's `isPlagiarized` flag is truthy AND
the score exceeds `0.8`; the execution-output warning is shown iff the flag
is truthy, with no `0.5` threshold anywhere; and the repository's screener
stub always returns flag `false` with score `0.1`, so in-repo runs are
never blocked nor warned. -/
theorem plagiarism_gate_amended (flag : Option Bool) (score : Option ℚ)
    (er : ExecutionResult) (code lang : String) (pid : Nat) :
    (plagiarismGate flag score = true ↔
      flag.getD false = true ∧ score.getD 0 > 4/5) ∧
    plagiarismWarningShown er = er.potentialPlagiarism.getD false ∧
    detectPlagiarism code lang pid = { isPlagiarized := false, score := 1/10 } := by
  refine ⟨?_, rfl, rfl⟩
  simp [plagiarismGate, Bool.and_eq_true, decide_eq_true_eq]

end ExecService

namespace ExecService

open JsStr Js ValidationUtils

/-- Claim C10: whenever a judge run completes with a persisted Solution row
(which happens exactly for status `"Accepted"`), that row's `isOptimal`
field is the literal `true` — independent of the judge's own computed
optimality, which the witness below exhibits as `false` on the same run. -/
theorem accepted_solution_isOptimal_true (userId : String) (pm : Option ProblemMeta)
    (code language : String) (problem : Option Problem)
    (tests : List (TestCase × ExecOutcome)) (wallTime memUsed : Nat)
    (st : String) (s : SolutionData) (xp : Nat)
    (h : submitSolution userId pm code language problem tests wallTime memUsed =
      .completed st (some s) xp) :
    st = "Accepted" ∧ s.isOptimal = true := by
  unfold submitSolution at h
  cases pm with
  | none => cases h
  | some pmv =>
    dsimp only at h
    split at h
    · cases h
    · split at h
      · cases h
      · rw [SubmitOutcome.completed.injEq] at h
        obtain ⟨hst, hsol, -⟩ := h
        split at hsol
        · rename_i hacc
          rw [Option.some.injEq] at hsol
          subst hsol
          exact ⟨hst ▸ hacc, rfl⟩
        · cases hsol

/-- Witness for `accepted_solution_isOptimal_true`: a run whose single
test case passes a `general`-type problem; the judge's computed optimality
is `false` (the classifier default), the status is `"Accepted"`, and the
persisted solution still carries `isOptimal := true`. -/
theorem accepted_solution_isOptimal_true_witness :
    (validateTestCases "var x = 1" "javascript" (some {})
      [({ input := "i", expectedOutput := "42" }, { output := "42", time := 10 })]).1.isOptimal
      = false ∧
    ("Accepted" = "Accepted" ∧
      SolutionData.isOptimal
        { status := "Accepted", executionTime := 1, memoryUsed := 7
          xpEarned := 100, isOptimal := true } = true) :=
  ⟨by decide,
    accepted_solution_isOptimal_true "user-1" (some {}) "var x = 1" "javascript" (some {})
      [({ input := "i", expectedOutput := "42" }, { output := "42", time := 10 })] 1 7
      "Accepted" _ 100 (by decide)⟩

end ExecService
